import Mathlib

/-!
Shallow embedding of `ogre/twitter.py` (together with the record types from
`ogre/objects.py`), and proofs about its query sanitization, snowflake-ID
codec, rate-limit gating, pagination, and result filtering.

Modelling conventions:
* Python `float` timestamps and coordinates are embedded as exact rationals
  (`ℚ`); Python `int` is `ℤ`.
* Python `round` (banker's rounding, round-half-to-even) is `pyRound`;
  `<< 22` on a Python int is multiplication by `2 ^ 22` and `>> 22` is floor
  division (`Int.fdiv`), which is exactly Python's arithmetic shift.
* `str.strip()` / `str.lower()` are `pyStrip` / `pyLower`, defined directly
  over the character list of the string.
* A JSON value that may be absent (or `None`) is an `Option`; the raw nested
  dictionaries of the provider's responses are embedded as records holding
  exactly the fields the code reads (`statuses`, the `max_id` parsed out of
  `search_metadata.next_results`, tweet `coordinates`/`id`/`text`/
  `entities.media`, the rate-limit `remaining`/`reset` pair).
* The injected collaborators (`_api` for search and for the image transport)
  become explicit function arguments: the search endpoint is an oracle
  mapping the issued arguments and the index of the call to a response, and
  the image transport maps a URL to its bytes.
* Python exceptions become an `Except`-style outcome: `ValueError` raised by
  `twitter_query_from_query` is `FetchError.config`, `OGReLimitError` is
  `FetchError.limit`, and `OGReQueryError` is `FetchError.query`.  A raised
  exception discards all locals of `fetch`, which the embedding reflects by
  the error outcome carrying no features.
* To make the interaction with the provider observable, `fetch` returns,
  besides the Python-visible result, whether the rate-limit status call was
  made and the list of search calls issued (arguments paired with the
  response received), in order.
-/

namespace OgreTwitter

/-- Python `str.strip()` (whitespace stripped from both ends), embedded over
the string's character list. -/
def pyStrip (s : String) : String :=
  ⟨((s.data.dropWhile Char.isWhitespace).reverse.dropWhile Char.isWhitespace).reverse⟩

/-- Python `str.lower()`, embedded over the string's character list. -/
def pyLower (s : String) : String :=
  ⟨s.data.map Char.toLower⟩

/-- Python `round` on an exact rational: round half to even. -/
def pyRound (x : ℚ) : ℤ :=
  if Int.fract x = 1 / 2 then (if Even ⌊x⌋ then ⌊x⌋ else ⌊x⌋ + 1) else round x

/-- Source: `snowflake_id(timestamp)`, line 38 of `twitter.py`:
`(int(round(timestamp * 1000)) - 1288834974657) << 22`. -/
def snowflake_id (timestamp : ℚ) : ℤ :=
  (pyRound (timestamp * 1000) - 1288834974657) * 2 ^ 22

/-- Source: `timestamp_from_snowflake_id(snowflake_id)`, line 43 of
`twitter.py`: `((snowflake_id >> 22) + 1288834974657) / 1000.0`. -/
def timestamp_from_snowflake_id (snowflake : ℤ) : ℚ :=
  ((snowflake.fdiv (2 ^ 22) + 1288834974657 : ℤ) : ℚ) / 1000

/-- Source: `ogre/objects.py` `Location` namedtuple. -/
structure Location where
  latitude : ℚ
  longitude : ℚ
  radius : ℚ
  unit : String
deriving DecidableEq

/-- Source: `ogre/objects.py` `Interval` namedtuple (POSIX timestamps). -/
structure Interval where
  earliest : ℚ
  latest : ℚ
deriving DecidableEq

/-- Source: `ogre/objects.py` `Query` namedtuple (the generic request). -/
structure Query where
  media : List String
  keyword : String
  quantity : ℤ
  location : Option Location
  interval : Option Interval
deriving DecidableEq

/-- Source: `TwitterKeys` namedtuple, line 24 of `twitter.py`. -/
structure TwitterKeys where
  consumer_key : String
  access_token : String
deriving DecidableEq

/-- The components of the geocode string built by
`twitter_geocode_from_location` (line 33 of `twitter.py`), which formats
`"{latitude},{longitude},{radius}{unit}"`.  The numeric-to-decimal-string
formatting is abstracted: the embedding keeps the four formatted components. -/
structure Geocode where
  latitude : ℚ
  longitude : ℚ
  radius : ℚ
  unit : String
deriving DecidableEq

/-- Source: `twitter_geocode_from_location(location)`, line 33 of
`twitter.py`. -/
def twitter_geocode_from_location (location : Location) : Geocode :=
  ⟨location.latitude, location.longitude, location.radius, location.unit⟩

/-- Source: `QUERY_MEDIA = ('image', 'text')`, line 52 of `twitter.py`. -/
def QUERY_MEDIA : List String := ["image", "text"]

/-- Source: `TwitterQuery` namedtuple, line 48 of `twitter.py`
(`QUERY_FIELDS + ('geocode', 'since_id', 'max_id')`). -/
structure TwitterQuery where
  media : List String
  keyword : String
  quantity : ℤ
  location : Option Location
  interval : Option Interval
  geocode : Option Geocode
  since_id : Option ℤ
  max_id : Option ℤ
deriving DecidableEq

/-- The Python exceptions `fetch` can raise: the `ValueError` of
`twitter_query_from_query` (the spec's `ConfigurationError`), the
`OGReLimitError` of `search_limits` (the spec's `QuotaUnavailableError`), and
the `OGReQueryError` of the pagination loop (the spec's
`MalformedResponseError`). -/
inductive FetchError where
  | config
  | limit
  | query
deriving DecidableEq

/-- Source: `twitter_query_from_query(query)`, lines 68-99 of `twitter.py`.
Python's `set(query.media)` is embedded as `List.dedup` (the claims only
depend on the resulting set's membership and cardinality, not on the
unspecified iteration order of a Python set). -/
def twitter_query_from_query (query : Query) : Except FetchError TwitterQuery :=
  let media := query.media.dedup.filter (fun m => QUERY_MEDIA.contains m)
  let keyword :=
    if media.length = 1 then
      query.keyword ++ (if media = ["image"] then " pic.twitter.com" else " -pic.twitter.com")
    else query.keyword
  let keyword := pyStrip keyword
  let geocode :=
    match query.location with
    | some loc => if loc.radius > 0 then some (twitter_geocode_from_location loc) else none
    | none => none
  if (keyword = "" ∨ keyword = "-pic.twitter.com") ∧ geocode = none then
    .error .config
  else
    .ok { media := media
          keyword := keyword
          quantity := query.quantity
          location := query.location
          interval := query.interval
          geocode := geocode
          since_id := query.interval.map (fun i => snowflake_id i.earliest)
          max_id := query.interval.map (fun i => snowflake_id i.latest) }

/-- Source: `search_limits(_api)`, lines 102-115 of `twitter.py`.  The nested
dictionary walk that extracts `remaining` and `reset` for the search resource
is embedded as an `Option (ℤ × ℤ)` argument: `none` is a response in which a
key is missing (the `KeyError` branch raising `OGReLimitError`).  A
`remaining < 1` value only logs a warning and is returned unchanged. -/
def search_limits (limits : Option (ℤ × ℤ)) : Except FetchError (ℤ × ℤ) :=
  match limits with
  | none => .error .limit
  | some r => .ok r

/-- One entry of a tweet's `entities.media` list, with the fields the code
reads: `type` (the source defaults a missing key to `''`, so it is embedded
as a plain string), `media_url_https` and `media_url`. -/
structure MediaEntity where
  type : String
  media_url_https : Option String
  media_url : Option String
deriving DecidableEq

/-- A raw tweet record, with the fields the code reads: `coordinates` (the
inner lon/lat pair of `tweet['coordinates']['coordinates']`), `id`, `text`,
and the `entities.media` list (the source defaults a missing `entities` or
`media` key to an empty sequence). -/
structure Tweet where
  coordinates : Option (ℚ × ℚ)
  id : Option ℤ
  text : Option String
  entities : List MediaEntity
deriving DecidableEq

/-- The base64 alphabet used by `base64.b64encode`. -/
def base64Alphabet : List Char :=
  "ABCDEFGHIJKLMNOPQRSTUVWXYZabcdefghijklmnopqrstuvwxyz0123456789+/".data

/-- Index into the base64 alphabet. -/
def base64Char (n : ℕ) : Char := base64Alphabet.getD n '='

/-- Python `base64.b64encode` over a byte list (bytes taken mod 256). -/
def base64Encode : List ℕ → String
  | [] => ""
  | [a] =>
    let a := a % 256
    ⟨[base64Char (a / 4), base64Char (a % 4 * 16), '=', '=']⟩
  | [a, b] =>
    let a := a % 256
    let b := b % 256
    ⟨[base64Char (a / 4), base64Char (a % 4 * 16 + b / 16), base64Char (b % 16 * 4), '=']⟩
  | a :: b :: c :: rest =>
    let a := a % 256
    let b := b % 256
    let c := c % 256
    (⟨[base64Char (a / 4), base64Char (a % 4 * 16 + b / 16),
       base64Char (b % 16 * 4 + c / 64), base64Char (c % 64)]⟩ : String)
      ++ base64Encode rest

/-- The scan of `tweet['entities']['media']` in `geojson_from_tweet`, lines
141-146 of `twitter.py`: find the first entity whose lowercased `type` is
`'photo'` and which carries a URL (`media_url_https`, falling back to
`media_url` when that key is absent), fetch it through the injected
transport, and base64-encode the bytes.  An entity whose type is `photo` but
which has no URL is skipped without stopping the scan (the source only
`break`s after assigning). -/
def findImage (transport : String → List ℕ) : List MediaEntity → Option String
  | [] => none
  | e :: rest =>
    if pyLower e.type = "photo" then
      match e.media_url_https with
      | some url => some (base64Encode (transport url))
      | none =>
        match e.media_url with
        | some url => some (base64Encode (transport url))
        | none => findImage transport rest
    else findImage transport rest

/-- A GeoJSON Feature as built by `geojson_from_tweet`: the `Point` geometry
pair, and the `properties` dictionary (`source`, `time`, `original`, and the
optional `text` and `image` entries).  `properties.time` is kept as the raw
POSIX timestamp produced by `timestamp_from_snowflake_id`; the ISO-8601
rendering by `datetime.utcfromtimestamp(...).isoformat() + 'Z'` is an
injective formatting step abstracted away. -/
structure Feature where
  geometry : ℚ × ℚ
  source : String
  time : ℚ
  original : Tweet
  text : Option String
  image : Option String
deriving DecidableEq

/-- Source: `geojson_from_tweet(tweet, media, strict, _api)`, lines 118-147
of `twitter.py`.  The source indexes `tweet['coordinates']` and `tweet['id']`
unconditionally (`fetch` only feeds it records that have both); the embedding
uses a default for the impossible missing case. -/
def geojson_from_tweet (tweet : Tweet) (media : List String) (strict : Bool)
    (transport : String → List ℕ) : Feature :=
  { geometry := tweet.coordinates.getD (0, 0)
    source := "ogre.twitter"
    time := timestamp_from_snowflake_id (tweet.id.getD 0)
    original := tweet
    text := if "text" ∈ media ∨ strict = false then tweet.text else none
    image :=
      if "image" ∈ media ∨ strict = false then findImage transport tweet.entities
      else none }

/-- The arguments of one `api.search(...)` call, lines 182-188 of
`twitter.py`. -/
structure SearchArgs where
  q : String
  count : ℤ
  geocode : Option Geocode
  since_id : Option ℤ
  max_id : Option ℤ
deriving DecidableEq

/-- One search response, with the fields the code reads: the `statuses` list
(`none` when the key is missing) and the `max_id` number parsed out of
`search_metadata.next_results` (`none` when `search_metadata` or
`next_results` is missing; the `split('max_id=')`/`split('&')`/`int` string
surgery on the pagination token is abstracted to the parsed value). -/
structure SearchResponse where
  statuses : Option (List Tweet)
  next_results : Option ℤ
deriving DecidableEq

/-- A GeoJSON FeatureCollection: the `type` tag and the feature list. -/
structure FeatureCollection where
  type : String
  features : List Feature
deriving DecidableEq

/-- The outcome of one `fetch` invocation: the Python-visible result (a
FeatureCollection, or the exception raised), whether the rate-limit status
call was made, and the search calls issued, in order, each paired with the
response received. -/
structure FetchOutcome where
  result : Except FetchError FeatureCollection
  limitCalled : Bool
  calls : List (SearchArgs × SearchResponse)

/-- Number of search calls an outcome issued. -/
def FetchOutcome.searchCalls (o : FetchOutcome) : ℕ := o.calls.length

/-- The arguments of the search call `fetch` issues from a given loop state
(lines 182-188 of `twitter.py`): the sanitized keyword, `count` capped at the
provider page maximum of 100 (`min(remaining, 100)`, where `remaining` is
`tquery.quantity` minus the number of accumulated features), the geocode, the
lower identifier bound, and the current cursor as the upper bound. -/
def searchArgsAt (tquery : TwitterQuery) (maxId : Option ℤ)
    (features : List Feature) : SearchArgs :=
  { q := tquery.keyword
    count := min (tquery.quantity - features.length) 100
    geocode := tquery.geocode
    since_id := tquery.since_id
    max_id := maxId }

/-- The Features one search page contributes (lines 194-200 of `twitter.py`):
the returned records carrying both a geolocation and an identifier, in
provider order, each fed through `geojson_from_tweet`; no deduplication. -/
def pageFeatures (tquery : TwitterQuery) (strict : Bool)
    (transport : String → List ℕ) (statuses : List Tweet) : List Feature :=
  (statuses.filter fun t => t.coordinates.isSome && t.id.isSome).map
    fun t => geojson_from_tweet t tquery.media strict transport

/-- The `while remaining > 0` pagination loop of `fetch`, lines 178-205 of
`twitter.py`.  `remaining` always equals `tquery.quantity` minus the length
of the accumulated feature list (it is initialized to `tquery.quantity` when
the list is empty and recomputed that way at the end of every iteration), so
the loop condition is embedded as that comparison.  `fuel` is the number of
iterations the budget still allows (`query_limit - query_count`): the
source's `if query_count >= query_limit: break` is the `0` case.  `callIdx`
numbers the search calls for the oracle.  The value returned pairs the
result (the final feature list, or the raised error) with the list of search
calls made from this point on. -/
def fetchLoop (search : SearchArgs → ℕ → SearchResponse)
    (transport : String → List ℕ) (tquery : TwitterQuery) (strict : Bool) :
    ℕ → ℕ → Option ℤ → List Feature →
    Except FetchError (List Feature) × List (SearchArgs × SearchResponse)
  | fuel, callIdx, maxId, features =>
    if (features.length : ℤ) < tquery.quantity then
      match fuel with
      | 0 => (.ok features, [])
      | fuel' + 1 =>
        let args := searchArgsAt tquery maxId features
        let response := search args callIdx
        match response.statuses with
        | none => (.error .query, [(args, response)])
        | some statuses =>
          let features' := features ++ pageFeatures tquery strict transport statuses
          match response.next_results with
          | none => (.ok features', [(args, response)])
          | some m =>
            let rest := fetchLoop search transport tquery strict fuel' (callIdx + 1) (some m)
              features'
            (rest.1, (args, response) :: rest.2)
    else (.ok features, [])

/-- Unfolding equation: with no budget left the loop issues no call and
returns the accumulated features. -/
theorem fetchLoop_zero (search : SearchArgs → ℕ → SearchResponse)
    (transport : String → List ℕ) (tquery : TwitterQuery) (strict : Bool)
    (callIdx : ℕ) (maxId : Option ℤ) (features : List Feature) :
    fetchLoop search transport tquery strict 0 callIdx maxId features =
      (.ok features, []) := by
  rw [fetchLoop]
  split_ifs <;> rfl

/-- Unfolding equation for one loop iteration with budget left. -/
theorem fetchLoop_succ (search : SearchArgs → ℕ → SearchResponse)
    (transport : String → List ℕ) (tquery : TwitterQuery) (strict : Bool)
    (fuel callIdx : ℕ) (maxId : Option ℤ) (features : List Feature) :
    fetchLoop search transport tquery strict (fuel + 1) callIdx maxId features =
      if (features.length : ℤ) < tquery.quantity then
        match (search (searchArgsAt tquery maxId features) callIdx).statuses with
        | none => (.error .query,
            [(searchArgsAt tquery maxId features,
              search (searchArgsAt tquery maxId features) callIdx)])
        | some statuses =>
          match (search (searchArgsAt tquery maxId features) callIdx).next_results with
          | none => (.ok (features ++ pageFeatures tquery strict transport statuses),
              [(searchArgsAt tquery maxId features,
                search (searchArgsAt tquery maxId features) callIdx)])
          | some m =>
            ((fetchLoop search transport tquery strict fuel (callIdx + 1) (some m)
                (features ++ pageFeatures tquery strict transport statuses)).1,
              (searchArgsAt tquery maxId features,
                  search (searchArgsAt tquery maxId features) callIdx) ::
                (fetchLoop search transport tquery strict fuel (callIdx + 1) (some m)
                  (features ++ pageFeatures tquery strict transport statuses)).2)
      else (.ok features, []) := by
  rw [fetchLoop]

/-- Source: `fetch(query, keys, strict, max_queries, _api)`, lines 150-215 of
`twitter.py`.  The injected `_api` class is split into its two uses: the
rate-limit status response (`limits`) and the search oracle (`search`); the
image transport of `geojson_from_tweet` is threaded through as `transport`.
`validate_twitter_keys` only destructures the key pair and stringifies its
fields, which cannot fail on a `TwitterKeys` value. -/
def fetch (query : Query) (_keys : TwitterKeys) (strict : Bool) (maxQueries : ℤ)
    (limits : Option (ℤ × ℤ)) (search : SearchArgs → ℕ → SearchResponse)
    (transport : String → List ℕ) : FetchOutcome :=
  match twitter_query_from_query query with
  | .error e => { result := .error e, limitCalled := false, calls := [] }
  | .ok tquery =>
    if tquery.media.length < 1 ∨ tquery.quantity < 1 ∨ maxQueries < 1 then
      { result := .ok { type := "FeatureCollection", features := [] }
        limitCalled := false
        calls := [] }
    else
      match search_limits limits with
      | .error e => { result := .error e, limitCalled := true, calls := [] }
      | .ok (remaining, _reset) =>
        let queryLimit := min remaining maxQueries
        let r := fetchLoop search transport tquery strict queryLimit.toNat 0 tquery.max_id []
        { result := r.1.map fun feats => { type := "FeatureCollection", features := feats }
          limitCalled := true
          calls := r.2 }

end OgreTwitter

namespace OgreTwitter

/-! Codec lemmas. -/

/-- Python `round` is the identity on integers. -/
theorem pyRound_intCast (m : ℤ) : pyRound (m : ℚ) = m := by
  unfold pyRound
  rw [Int.fract_intCast]
  norm_num

/-- Mathlib's `round` (round half up) is monotone. -/
theorem round_monotone {x y : ℚ} (h : x ≤ y) : round x ≤ round y := by
  rw [round_eq, round_eq]
  exact Int.floor_le_floor (by linarith)

/-- A rational with fractional part `1/2` is its floor plus `1/2`. -/
theorem eq_floor_add_half {x : ℚ} (hx : Int.fract x = 1 / 2) :
    x = (⌊x⌋ : ℚ) + 1 / 2 := by
  have := Int.floor_add_fract x
  rw [hx] at this
  linarith

/-- Mathlib's `round` at a half-integer point is the floor plus one. -/
theorem round_of_fract_half {x : ℚ} (hx : Int.fract x = 1 / 2) :
    round x = ⌊x⌋ + 1 := by
  rw [round_eq]
  have h2 := eq_floor_add_half hx
  have h1 : x + 1 / 2 = ((⌊x⌋ + 1 : ℤ) : ℚ) := by push_cast; linarith
  rw [h1, Int.floor_intCast]

/-- Python's round-half-to-even is monotone. -/
theorem pyRound_mono {x y : ℚ} (h : x ≤ y) : pyRound x ≤ pyRound y := by
  unfold pyRound
  by_cases hx : Int.fract x = 1 / 2 <;> by_cases hy : Int.fract y = 1 / 2 <;>
    simp only [hx, hy, if_pos, if_neg, if_true, if_false, one_ne_zero, not_false_iff]
  · -- both half: compare floors
    rcases eq_or_lt_of_le (Int.floor_le_floor h) with he | hlt
    · rw [he]
    · split_ifs <;> omega
  · -- x half, y not: go through round
    have h1 : ⌊x⌋ + 1 = round x := (round_of_fract_half hx).symm
    have h2 : round x ≤ round y := round_monotone h
    split_ifs <;> omega
  · -- x not half, y half
    have hxy : x < y := by
      rcases lt_or_eq_of_le h with h' | h'
      · exact h'
      · exact absurd (h' ▸ hy) hx
    have h1 : round x ≤ ⌊y⌋ := by
      rw [round_eq]
      have h3 := eq_floor_add_half hy
      have h2 : x + 1 / 2 < ((⌊y⌋ + 1 : ℤ) : ℚ) := by push_cast; linarith
      have h4 := Int.floor_lt.mpr h2
      omega
    split_ifs <;> omega
  · exact round_monotone h

end OgreTwitter

namespace OgreTwitter

/-- C2: for every non-negative timestamp `ts` on the millisecond grid
(`ts * 1000` is an integer), `timestamp_from_snowflake_id (snowflake_id ts)`
recovers `ts` exactly; and for every integer identifier `x` whose low 22 bits
are zero, `snowflake_id (timestamp_from_snowflake_id x)` recovers `x`
exactly. -/
theorem claim_C2 :
    (∀ ts : ℚ, 0 ≤ ts → (∃ m : ℤ, ts * 1000 = (m : ℚ)) →
      timestamp_from_snowflake_id (snowflake_id ts) = ts) ∧
    (∀ x : ℤ, x % 2 ^ 22 = 0 →
      snowflake_id (timestamp_from_snowflake_id x) = x) := by
  constructor
  · rintro ts - ⟨m, hm⟩
    unfold snowflake_id timestamp_from_snowflake_id
    rw [hm, pyRound_intCast, Int.mul_fdiv_cancel _ (by positivity)]
    have h2 : (m - 1288834974657 + 1288834974657 : ℤ) = m := by ring
    rw [h2, ← hm]
    field_simp
  · intro x hx
    obtain ⟨k, hk⟩ := Int.dvd_of_emod_eq_zero hx
    subst hk
    unfold snowflake_id timestamp_from_snowflake_id
    rw [Int.mul_fdiv_cancel_left _ (by positivity)]
    have h1 : (((k + 1288834974657 : ℤ) : ℚ)) / 1000 * 1000 =
        ((k + 1288834974657 : ℤ) : ℚ) :=
      div_mul_cancel₀ _ (by norm_num)
    rw [h1, pyRound_intCast]
    ring

/-- Witness for C2 at the concrete inputs `ts = 2` and `x = 2 ^ 22`. -/
theorem claim_C2_witness :
    timestamp_from_snowflake_id (snowflake_id 2) = 2 ∧
    snowflake_id (timestamp_from_snowflake_id (2 ^ 22)) = 2 ^ 22 :=
  ⟨claim_C2.1 2 (by norm_num) ⟨2000, by norm_num⟩,
   claim_C2.2 (2 ^ 22) (by decide)⟩

/-- C9: `snowflake_id` is monotone non-decreasing, so identifier order
respects time order for the `since_id`/`max_id` bounds and the pagination
cursor. -/
theorem claim_C9 (ts1 ts2 : ℚ) (h : ts1 ≤ ts2) :
    snowflake_id ts1 ≤ snowflake_id ts2 := by
  unfold snowflake_id
  have h1 := pyRound_mono (x := ts1 * 1000) (y := ts2 * 1000) (by linarith)
  have h2 : (0 : ℤ) ≤ 2 ^ 22 := by positivity
  exact mul_le_mul_of_nonneg_right (by omega) h2

/-- Witness for C9 at the concrete timestamps `0 ≤ 1`. -/
theorem claim_C9_witness : (0 : ℚ) ≤ 1 ∧ snowflake_id 0 ≤ snowflake_id 1 :=
  ⟨by norm_num, claim_C9 0 1 (by norm_num)⟩

end OgreTwitter

namespace OgreTwitter

/-- The keyword as the spec's failure rule describes it (claim C3): intersect
the requested media with the provider-supported set, append the single-medium
hint, and trim.  Stated as its own definition, following the spec's wording,
so the sanitizer's failure condition can be compared against it. -/
def specSanitizedKeyword (query : Query) : String :=
  let media := query.media.dedup.filter (fun m => QUERY_MEDIA.contains m)
  pyStrip
    (if media.length = 1 then
      query.keyword ++ (if media = ["image"] then " pic.twitter.com" else " -pic.twitter.com")
    else query.keyword)

/-- Helper for C3: the only error the sanitizer ever produces is the
configuration error. -/
theorem twitter_query_from_query_error_config (query : Query) (e : FetchError)
    (he : twitter_query_from_query query = .error e) : e = .config := by
  unfold twitter_query_from_query at he
  rcases hloc : query.location with - | loc <;> simp only [hloc] at he <;>
    split_ifs at he <;> simp_all

/-- Helper for C3: the sanitizer fails exactly when the spec's rule says so:
the sanitized keyword is empty or the bare exclusion hint, and no geocode was
computed because the location is absent or its radius is nonpositive. -/
theorem twitter_query_from_query_error_iff (query : Query) :
    (∃ e, twitter_query_from_query query = .error e) ↔
      ((specSanitizedKeyword query = "" ∨
          specSanitizedKeyword query = "-pic.twitter.com") ∧
        (query.location = none ∨
          ∃ loc, query.location = some loc ∧ loc.radius ≤ 0)) := by
  unfold twitter_query_from_query specSanitizedKeyword
  rcases hloc : query.location with - | loc <;> simp only [hloc] <;>
    split_ifs with h1 h2 <;>
    simp_all

end OgreTwitter

namespace OgreTwitter

/-- C3: `twitter_query_from_query` raises the configuration error if and only
if, after intersecting the media with `{image, text}`, appending the
single-medium hint, and trimming, the keyword is empty or equals
`-pic.twitter.com` alone and no geocode was computed (location absent or
radius nonpositive); this is its sole failure, and on failure `fetch` has
made no provider call (neither the rate-limit status call nor any search
call). -/
theorem claim_C3 (query : Query) (keys : TwitterKeys) (strict : Bool)
    (maxQueries : ℤ) (limits : Option (ℤ × ℤ))
    (search : SearchArgs → ℕ → SearchResponse) (transport : String → List ℕ) :
    ((∃ e, twitter_query_from_query query = .error e) ↔
      ((specSanitizedKeyword query = "" ∨
          specSanitizedKeyword query = "-pic.twitter.com") ∧
        (query.location = none ∨
          ∃ loc, query.location = some loc ∧ loc.radius ≤ 0))) ∧
    (∀ e, twitter_query_from_query query = .error e →
      e = .config ∧
      fetch query keys strict maxQueries limits search transport =
        { result := .error .config, limitCalled := false, calls := [] }) := by
  refine ⟨twitter_query_from_query_error_iff query, fun e he => ?_⟩
  have hc := twitter_query_from_query_error_config query e he
  subst hc
  refine ⟨rfl, ?_⟩
  unfold fetch
  rw [he]

/-- Witness for C3 at the concrete under-specified request with empty media
and empty keyword and no location. -/
theorem claim_C3_witness :
    fetch ⟨[], "", 0, none, none⟩ ⟨"ck", "at"⟩ false 450 (some (450, 0))
      (fun _ _ => ⟨some [], none⟩) (fun _ => []) =
      { result := .error .config, limitCalled := false, calls := [] } :=
  (claim_C3 ⟨[], "", 0, none, none⟩ ⟨"ck", "at"⟩ false 450 (some (450, 0))
    (fun _ _ => ⟨some [], none⟩) (fun _ => []) |>.2 .config (by rfl)).2

/-- C4: for every request whose sanitized media set is empty or whose
quantity is nonpositive, `fetch` returns the empty FeatureCollection and
makes zero provider calls: the rate-limit status call is skipped and no
search call is issued. -/
theorem claim_C4 (query : Query) (keys : TwitterKeys) (strict : Bool)
    (maxQueries : ℤ) (limits : Option (ℤ × ℤ))
    (search : SearchArgs → ℕ → SearchResponse) (transport : String → List ℕ)
    (tquery : TwitterQuery)
    (hok : twitter_query_from_query query = .ok tquery)
    (hguard : tquery.media = [] ∨ tquery.quantity ≤ 0) :
    fetch query keys strict maxQueries limits search transport =
      { result := .ok { type := "FeatureCollection", features := [] }
        limitCalled := false
        calls := [] } := by
  unfold fetch
  simp only [hok]
  have hcond : tquery.media.length < 1 ∨ tquery.quantity < 1 ∨ maxQueries < 1 := by
    rcases hguard with h | h
    · exact Or.inl (by simp [h])
    · exact Or.inr (Or.inl (by omega))
  rw [if_pos hcond]

/-- Witness for C4 at a concrete request whose only requested medium
(`video`) is dropped by sanitization, leaving the media set empty. -/
theorem claim_C4_witness :
    fetch ⟨["video"], "hi", 5, none, none⟩ ⟨"ck", "at"⟩ false 450 (some (450, 0))
      (fun _ _ => ⟨some [], none⟩) (fun _ => []) =
      { result := .ok { type := "FeatureCollection", features := [] }
        limitCalled := false
        calls := [] } :=
  claim_C4 ⟨["video"], "hi", 5, none, none⟩ ⟨"ck", "at"⟩ false 450 (some (450, 0))
    (fun _ _ => ⟨some [], none⟩) (fun _ => [])
    ⟨[], "hi", 5, none, none, none, none, none⟩ (by rfl) (Or.inl rfl)

/-- C10: when `max_queries < 1`, even with non-empty sanitized media and a
positive quantity, `fetch` returns the empty FeatureCollection and makes zero
provider calls, including skipping the rate-limit status call. -/
theorem claim_C10 (query : Query) (keys : TwitterKeys) (strict : Bool)
    (maxQueries : ℤ) (limits : Option (ℤ × ℤ))
    (search : SearchArgs → ℕ → SearchResponse) (transport : String → List ℕ)
    (tquery : TwitterQuery)
    (hok : twitter_query_from_query query = .ok tquery)
    (hmq : maxQueries < 1) :
    fetch query keys strict maxQueries limits search transport =
      { result := .ok { type := "FeatureCollection", features := [] }
        limitCalled := false
        calls := [] } := by
  unfold fetch
  simp only [hok]
  rw [if_pos (Or.inr (Or.inr hmq))]

/-- Witness for C10 at a concrete request with non-empty sanitized media
(`text`), quantity 5, and `max_queries = 0`. -/
theorem claim_C10_witness :
    fetch ⟨["text"], "hi", 5, none, none⟩ ⟨"ck", "at"⟩ false 0 (some (450, 0))
      (fun _ _ => ⟨some [], none⟩) (fun _ => []) =
      { result := .ok { type := "FeatureCollection", features := [] }
        limitCalled := false
        calls := [] } :=
  claim_C10 ⟨["text"], "hi", 5, none, none⟩ ⟨"ck", "at"⟩ false 0 (some (450, 0))
    (fun _ _ => ⟨some [], none⟩) (fun _ => [])
    ⟨["text"], "hi -pic.twitter.com", 5, none, none, none, none, none⟩ (by rfl) (by decide)

end OgreTwitter

namespace OgreTwitter

/-- The pagination loop never issues more search calls than its fuel
(`query_limit - query_count`). -/
theorem fetchLoop_calls_le_fuel (search : SearchArgs → ℕ → SearchResponse)
    (transport : String → List ℕ) (tquery : TwitterQuery) (strict : Bool)
    (fuel : ℕ) :
    ∀ (callIdx : ℕ) (maxId : Option ℤ) (features : List Feature),
      (fetchLoop search transport tquery strict fuel callIdx maxId features).2.length
        ≤ fuel := by
  induction fuel with
  | zero =>
    intro callIdx maxId features
    rw [fetchLoop_zero]
    simp
  | succ n ih =>
    intro callIdx maxId features
    rw [fetchLoop_succ]
    split_ifs
    · split
      · simp
      · split
        · simp
        · simpa using Nat.succ_le_succ (ih _ _ _)
    · simp

end OgreTwitter

namespace OgreTwitter

/-- If every possible response to search call number `i` lacks the `statuses`
container, and the loop issues call `i`, then the loop raises the query error
and call `i` is its last call. -/
theorem fetchLoop_malformed (search : SearchArgs → ℕ → SearchResponse)
    (transport : String → List ℕ) (tquery : TwitterQuery) (strict : Bool)
    (i : ℕ) (hmal : ∀ args, (search args i).statuses = none) (fuel : ℕ) :
    ∀ (callIdx : ℕ) (maxId : Option ℤ) (features : List Feature),
      callIdx ≤ i →
      i < callIdx +
        (fetchLoop search transport tquery strict fuel callIdx maxId features).2.length →
      (fetchLoop search transport tquery strict fuel callIdx maxId features).1 =
          .error .query ∧
        callIdx +
          (fetchLoop search transport tquery strict fuel callIdx maxId features).2.length =
            i + 1 := by
  induction fuel with
  | zero =>
    intro callIdx maxId features hle hlt
    rw [fetchLoop_zero] at hlt
    simp at hlt
    exact absurd hlt (by omega)
  | succ n ih =>
    intro callIdx maxId features hle hlt
    by_cases hcond : (features.length : ℤ) < tquery.quantity
    · rcases hs : (search (searchArgsAt tquery maxId features) callIdx).statuses
        with - | statuses
      · -- this call is malformed: it must be call i
        rw [fetchLoop_succ, if_pos hcond] at hlt ⊢
        simp only [hs] at hlt ⊢
        simp at hlt
        have hi : callIdx = i := by omega
        subst hi
        simp
      · rcases hn : (search (searchArgsAt tquery maxId features) callIdx).next_results
          with - | m
        · -- the loop stops after this well-formed page, so call i was this one;
          -- but its response has statuses, contradicting the hypothesis
          rw [fetchLoop_succ, if_pos hcond] at hlt
          simp only [hs, hn] at hlt
          simp at hlt
          have hi : callIdx = i := by omega
          subst hi
          rw [hmal] at hs
          cases hs
        · -- recurse into the tail of the pagination
          rcases Nat.eq_or_lt_of_le hle with hi | hi
          · subst hi
            rw [hmal] at hs
            cases hs
          · rw [fetchLoop_succ, if_pos hcond] at hlt ⊢
            simp only [hs, hn, List.length_cons] at hlt ⊢
            have h2 := ih (callIdx + 1) (some m)
              (features ++ pageFeatures tquery strict transport statuses)
              (by omega) (by omega)
            exact ⟨h2.1, by omega⟩
    · rw [fetchLoop_succ, if_neg hcond] at hlt
      simp at hlt
      exact absurd hlt (by omega)

end OgreTwitter

namespace OgreTwitter

/-- If every recorded search response returns at most the requested `count`
of statuses, the loop never accumulates more features than the quantity. -/
theorem fetchLoop_ok_length_le (search : SearchArgs → ℕ → SearchResponse)
    (transport : String → List ℕ) (tquery : TwitterQuery) (strict : Bool)
    (fuel : ℕ) :
    ∀ (callIdx : ℕ) (maxId : Option ℤ) (features : List Feature),
      (∀ c ∈ (fetchLoop search transport tquery strict fuel callIdx maxId features).2,
        ∀ l, c.2.statuses = some l → (l.length : ℤ) ≤ c.1.count) →
      (features.length : ℤ) ≤ tquery.quantity →
      ∀ feats,
        (fetchLoop search transport tquery strict fuel callIdx maxId features).1 =
          .ok feats →
        (feats.length : ℤ) ≤ tquery.quantity := by
  induction fuel with
  | zero =>
    intro callIdx maxId features _ hlen feats hok
    rw [fetchLoop_zero] at hok
    simp at hok
    subst hok
    exact hlen
  | succ n ih =>
    intro callIdx maxId features hhon hlen feats hok
    by_cases hcond : (features.length : ℤ) < tquery.quantity
    · rcases hs : (search (searchArgsAt tquery maxId features) callIdx).statuses
        with - | statuses
      · rw [fetchLoop_succ, if_pos hcond] at hok
        simp [hs] at hok
      · have hpage : ((pageFeatures tquery strict transport statuses).length : ℤ)
            ≤ tquery.quantity - features.length := by
          have h1 : (pageFeatures tquery strict transport statuses).length
              ≤ statuses.length := by
            unfold pageFeatures
            rw [List.length_map]
            exact List.length_filter_le _ _
          rcases hn : (search (searchArgsAt tquery maxId features) callIdx).next_results
            with - | m
          all_goals {
            rw [fetchLoop_succ, if_pos hcond] at hhon
            simp only [hs, hn] at hhon
            have hcount := hhon (searchArgsAt tquery maxId features,
              search (searchArgsAt tquery maxId features) callIdx)
              (by simp) statuses hs
            simp only [searchArgsAt] at hcount
            omega
          }
        rcases hn : (search (searchArgsAt tquery maxId features) callIdx).next_results
          with - | m
        · rw [fetchLoop_succ, if_pos hcond] at hok
          simp only [hs, hn] at hok
          simp at hok
          subst hok
          simp only [List.length_append]
          push_cast
          omega
        · rw [fetchLoop_succ, if_pos hcond] at hok hhon
          simp only [hs, hn] at hok hhon
          refine ih (callIdx + 1) (some m)
            (features ++ pageFeatures tquery strict transport statuses)
            (fun c hc => hhon c (List.mem_cons_of_mem _ hc)) ?_ feats hok
          simp only [List.length_append]
          push_cast
          omega
    · rw [fetchLoop_succ, if_neg hcond] at hok
      simp at hok
      subst hok
      exact hlen

/-- When the loop succeeds, the final feature list is the initial
accumulator followed by, page per recorded call and in call order, that
page's filtered and mapped records. -/
theorem fetchLoop_ok_features (search : SearchArgs → ℕ → SearchResponse)
    (transport : String → List ℕ) (tquery : TwitterQuery) (strict : Bool)
    (fuel : ℕ) :
    ∀ (callIdx : ℕ) (maxId : Option ℤ) (features feats : List Feature),
      (fetchLoop search transport tquery strict fuel callIdx maxId features).1 =
        .ok feats →
      feats = features ++
        ((fetchLoop search transport tquery strict fuel callIdx maxId features).2.map
          fun c => pageFeatures tquery strict transport (c.2.statuses.getD [])).flatten := by
  induction fuel with
  | zero =>
    intro callIdx maxId features feats hok
    rw [fetchLoop_zero] at hok ⊢
    simp at hok
    simp [hok]
  | succ n ih =>
    intro callIdx maxId features feats hok
    by_cases hcond : (features.length : ℤ) < tquery.quantity
    · rcases hs : (search (searchArgsAt tquery maxId features) callIdx).statuses
        with - | statuses
      · rw [fetchLoop_succ, if_pos hcond] at hok
        simp [hs] at hok
      · rcases hn : (search (searchArgsAt tquery maxId features) callIdx).next_results
          with - | m
        · rw [fetchLoop_succ, if_pos hcond] at hok ⊢
          simp only [hs, hn] at hok ⊢
          simp at hok
          simp [hs, ← hok]
        · rw [fetchLoop_succ, if_pos hcond] at hok ⊢
          simp only [hs, hn] at hok ⊢
          have h2 := ih (callIdx + 1) (some m)
            (features ++ pageFeatures tquery strict transport statuses) feats hok
          simp [h2, hs, List.append_assoc]
    · rw [fetchLoop_succ, if_neg hcond] at hok ⊢
      simp at hok
      simp [hok]

end OgreTwitter

namespace OgreTwitter

/-- The sanitizer passes the requested quantity through unchanged. -/
theorem twitter_query_from_query_quantity (query : Query) (tquery : TwitterQuery)
    (hok : twitter_query_from_query query = .ok tquery) :
    tquery.quantity = query.quantity := by
  unfold twitter_query_from_query at hok
  rcases hloc : query.location with - | loc <;> simp only [hloc] at hok <;>
    split_ifs at hok
  all_goals simp at hok
  all_goals (subst hok; rfl)

/-- C1: for every request and every well-formed rate-limit response, `fetch`
issues at most `min(remaining, max_queries)` search calls (at most zero when
that bound is negative), and when the bound is nonpositive it issues zero
search calls. -/
theorem claim_C1 (query : Query) (keys : TwitterKeys) (strict : Bool)
    (maxQueries remaining reset : ℤ)
    (search : SearchArgs → ℕ → SearchResponse) (transport : String → List ℕ) :
    (((fetch query keys strict maxQueries (some (remaining, reset)) search
          transport).searchCalls : ℤ) ≤ max (min remaining maxQueries) 0) ∧
    (min remaining maxQueries ≤ 0 →
      (fetch query keys strict maxQueries (some (remaining, reset)) search
        transport).searchCalls = 0) := by
  unfold fetch FetchOutcome.searchCalls
  cases hq : twitter_query_from_query query with
  | error e => simp
  | ok tquery =>
    simp only []
    split_ifs with hguard
    · simp
    · simp only [search_limits]
      constructor
      · have h1 := fetchLoop_calls_le_fuel search transport tquery strict
          (min remaining maxQueries).toNat 0 tquery.max_id []
        have h2 := Int.toNat_eq_max (min remaining maxQueries)
        omega
      · intro hle
        have h0 : (min remaining maxQueries).toNat = 0 := Int.toNat_of_nonpos hle
        simp [h0, fetchLoop_zero]

/-- Witness for C1: with `remaining = 0` the budget is nonpositive and no
search call is made. -/
theorem claim_C1_witness :
    (fetch ⟨["text"], "hi", 5, none, none⟩ ⟨"ck", "at"⟩ false 450 (some (0, 0))
      (fun _ _ => ⟨some [], none⟩) (fun _ => [])).searchCalls = 0 :=
  (claim_C1 ⟨["text"], "hi", 5, none, none⟩ ⟨"ck", "at"⟩ false 450 0 0
    (fun _ _ => ⟨some [], none⟩) (fun _ => [])).2 (by decide)

/-- C5: if every possible response to search call number `i` lacks the
`statuses` container and `fetch` issues call `i`, then `fetch` raises the
query error (so no FeatureCollection is returned: features accumulated from
earlier pages are discarded with the raising of the exception) and makes no
further search calls: call `i` is the last one. -/
theorem claim_C5 (query : Query) (keys : TwitterKeys) (strict : Bool)
    (maxQueries : ℤ) (limits : Option (ℤ × ℤ))
    (search : SearchArgs → ℕ → SearchResponse) (transport : String → List ℕ)
    (i : ℕ)
    (hmal : ∀ args, (search args i).statuses = none)
    (hcalled : i < (fetch query keys strict maxQueries limits search
      transport).searchCalls) :
    (fetch query keys strict maxQueries limits search transport).result =
        .error .query ∧
      (fetch query keys strict maxQueries limits search transport).searchCalls
        = i + 1 := by
  unfold fetch FetchOutcome.searchCalls at hcalled ⊢
  cases hq : twitter_query_from_query query with
  | error e =>
    rw [hq] at hcalled
    simp at hcalled
  | ok tquery =>
    rw [hq] at hcalled
    simp only [] at hcalled ⊢
    split_ifs at hcalled ⊢ with hguard
    · simp at hcalled
    · cases limits with
      | none => simp [search_limits] at hcalled
      | some r =>
        simp only [search_limits] at hcalled ⊢
        have h2 := fetchLoop_malformed search transport tquery strict i hmal
          (min r.1 maxQueries).toNat 0 tquery.max_id [] (Nat.zero_le i)
          (by simpa using hcalled)
        simp only [] at h2 ⊢
        refine ⟨?_, by omega⟩
        rw [h2.1]
        rfl

/-- Witness for C5: a provider whose very first page has no `statuses`
container makes `fetch` fail with the query error after exactly one call. -/
theorem claim_C5_witness :
    (fetch ⟨["text"], "hi", 2, none, none⟩ ⟨"ck", "at"⟩ false 3 (some (5, 0))
          (fun _ _ => ⟨none, none⟩) (fun _ => [])).result = .error .query ∧
      (fetch ⟨["text"], "hi", 2, none, none⟩ ⟨"ck", "at"⟩ false 3 (some (5, 0))
        (fun _ _ => ⟨none, none⟩) (fun _ => [])).searchCalls = 0 + 1 :=
  claim_C5 ⟨["text"], "hi", 2, none, none⟩ ⟨"ck", "at"⟩ false 3 (some (5, 0))
    (fun _ _ => ⟨none, none⟩) (fun _ => []) 0 (fun _ => rfl) (by decide)

end OgreTwitter

namespace OgreTwitter

/-- C6: for every request with a non-negative quantity against a provider
that returns at most the requested `count` of statuses per page, when `fetch`
returns normally its FeatureCollection holds between 0 and `quantity`
features, inclusive. -/
theorem claim_C6 (query : Query) (keys : TwitterKeys) (strict : Bool)
    (maxQueries : ℤ) (limits : Option (ℤ × ℤ))
    (search : SearchArgs → ℕ → SearchResponse) (transport : String → List ℕ)
    (fc : FeatureCollection)
    (hq0 : 0 ≤ query.quantity)
    (hhon : ∀ c ∈ (fetch query keys strict maxQueries limits search transport).calls,
      ∀ l, c.2.statuses = some l → (l.length : ℤ) ≤ c.1.count)
    (hok : (fetch query keys strict maxQueries limits search transport).result =
      .ok fc) :
    (0 : ℤ) ≤ fc.features.length ∧ (fc.features.length : ℤ) ≤ query.quantity := by
  refine ⟨by positivity, ?_⟩
  unfold fetch at hhon hok
  cases hq : twitter_query_from_query query with
  | error e =>
    rw [hq] at hok
    simp at hok
  | ok tquery =>
    rw [hq] at hok hhon
    simp only [] at hok hhon
    have hquant := twitter_query_from_query_quantity query tquery hq
    split_ifs at hok hhon with hguard
    · simp at hok
      rw [← hok]
      simpa using hq0
    · cases limits with
      | none => simp [search_limits] at hok
      | some r =>
        obtain ⟨rem, rs⟩ := r
        simp only [search_limits] at hok hhon
        cases hl : (fetchLoop search transport tquery strict
            (min rem maxQueries).toNat 0 tquery.max_id []).1 with
        | error e =>
          rw [hl] at hok
          simp [Except.map] at hok
        | ok feats =>
          rw [hl] at hok
          simp [Except.map] at hok
          have hle := fetchLoop_ok_length_le search transport tquery strict
            (min rem maxQueries).toNat 0 tquery.max_id [] hhon
            (by simp [hquant]; omega) feats hl
          rw [← hok]
          simpa [hquant] using hle

/-- Witness for C6 at a concrete request for two features against a provider
returning one empty page. -/
theorem claim_C6_witness :
    (0 : ℤ) ≤ (({ type := "FeatureCollection", features := [] } :
        FeatureCollection)).features.length ∧
      ((({ type := "FeatureCollection", features := [] } :
          FeatureCollection)).features.length : ℤ) ≤
        (⟨["image", "text"], "hi", 2, none, none⟩ : Query).quantity :=
  claim_C6 ⟨["image", "text"], "hi", 2, none, none⟩ ⟨"ck", "at"⟩ false 3
    (some (5, 0)) (fun _ _ => ⟨some [], none⟩) (fun _ => [])
    { type := "FeatureCollection", features := [] }
    (by decide)
    (by
      intro c hc l hl
      have hcalls : (fetch ⟨["image", "text"], "hi", 2, none, none⟩ ⟨"ck", "at"⟩
          false 3 (some (5, 0)) (fun _ _ => ⟨some [], none⟩) (fun _ => [])).calls =
          [(⟨"hi", 2, none, none, none⟩, ⟨some [], none⟩)] := rfl
      rw [hcalls] at hc
      simp at hc
      subst hc
      simp at hl
      subst hl
      decide)
    (by rfl)

/-- C7: when `fetch` succeeds, the returned features are exactly, page per
search call and in call order, the records of that page that carry both a
geolocation and an identifier, each fed through the Feature Builder, in
provider order and without deduplication; records lacking either field are
excluded whatever their other fields hold. -/
theorem claim_C7 (query : Query) (keys : TwitterKeys) (strict : Bool)
    (maxQueries : ℤ) (limits : Option (ℤ × ℤ))
    (search : SearchArgs → ℕ → SearchResponse) (transport : String → List ℕ)
    (tquery : TwitterQuery) (fc : FeatureCollection)
    (hq : twitter_query_from_query query = .ok tquery)
    (hok : (fetch query keys strict maxQueries limits search transport).result =
      .ok fc) :
    fc.features =
      ((fetch query keys strict maxQueries limits search transport).calls.map
        fun c => pageFeatures tquery strict transport (c.2.statuses.getD [])).flatten := by
  unfold fetch at hok ⊢
  rw [hq] at hok ⊢
  simp only [] at hok ⊢
  split_ifs at hok ⊢ with hguard
  · simp at hok ⊢
    rw [← hok]
  · cases limits with
    | none => simp [search_limits] at hok
    | some r =>
      obtain ⟨rem, rs⟩ := r
      simp only [search_limits] at hok ⊢
      cases hl : (fetchLoop search transport tquery strict
          (min rem maxQueries).toNat 0 tquery.max_id []).1 with
      | error e =>
        rw [hl] at hok
        simp [Except.map] at hok
      | ok feats =>
        rw [hl] at hok
        simp [Except.map] at hok
        have h2 := fetchLoop_ok_features search transport tquery strict
          (min rem maxQueries).toNat 0 tquery.max_id [] feats hl
        rw [← hok]
        simpa using h2

end OgreTwitter

namespace OgreTwitter

/-- Witness for C7 at a concrete request: one page holding a well-formed
record and a record without geolocation; only the former is returned. -/
theorem claim_C7_witness :
    ({ type := "FeatureCollection"
       features := [geojson_from_tweet ⟨some (1, 2), some 5, some "hello", []⟩
         ["text"] false (fun _ => [])] } : FeatureCollection).features =
      ((fetch ⟨["text"], "hi", 2, none, none⟩ ⟨"ck", "at"⟩ false 3 (some (5, 0))
          (fun _ _ => ⟨some [⟨some (1, 2), some 5, some "hello", []⟩,
            ⟨none, some 6, some "x", []⟩], none⟩) (fun _ => [])).calls.map
        fun c =>
          pageFeatures ⟨["text"], "hi -pic.twitter.com", 2, none, none, none, none, none⟩
            false (fun _ => []) (c.2.statuses.getD [])).flatten :=
  claim_C7 ⟨["text"], "hi", 2, none, none⟩ ⟨"ck", "at"⟩ false 3 (some (5, 0))
    (fun _ _ => ⟨some [⟨some (1, 2), some 5, some "hello", []⟩,
      ⟨none, some 6, some "x", []⟩], none⟩) (fun _ => [])
    ⟨["text"], "hi -pic.twitter.com", 2, none, none, none, none, none⟩
    { type := "FeatureCollection"
      features := [geojson_from_tweet ⟨some (1, 2), some 5, some "hello", []⟩
        ["text"] false (fun _ => [])] }
    (by rfl) (by rfl)

/-- Helper for C8: the image scan only ever succeeds when some entity's
lowercased type is `photo`. -/
theorem findImage_photo (transport : String → List ℕ) :
    ∀ (entities : List MediaEntity) (s : String),
      findImage transport entities = some s →
      ∃ e ∈ entities, pyLower e.type = "photo" := by
  intro entities
  induction entities with
  | nil =>
    intro s h
    cases h
  | cons e rest ih =>
    intro s h
    rw [findImage] at h
    split_ifs at h with htype
    · exact ⟨e, List.mem_cons_self _ _, htype⟩
    · obtain ⟨e', he', ht⟩ := ih s h
      exact ⟨e', List.mem_cons_of_mem _ he', ht⟩

/-- C8: for every record and every media set containing `image`, the built
Feature carries an `image` property only if the record has a media entity
whose lowercased type is `photo`; a record with only text (no media
entities) never yields an `image` property, whatever the strictness flag. -/
theorem claim_C8 (tweet : Tweet) (media : List String) (strict : Bool)
    (transport : String → List ℕ)
    (hmedia : "image" ∈ media) :
    ((geojson_from_tweet tweet media strict transport).image.isSome = true →
      ∃ e ∈ tweet.entities, pyLower e.type = "photo") ∧
    (tweet.entities = [] →
      (geojson_from_tweet tweet media strict transport).image = none) := by
  constructor
  · intro himg
    simp only [geojson_from_tweet] at himg
    rw [if_pos (Or.inl hmedia)] at himg
    cases hfi : findImage transport tweet.entities with
    | none =>
      rw [hfi] at himg
      simp at himg
    | some s => exact findImage_photo transport tweet.entities s hfi
  · intro hent
    simp only [geojson_from_tweet, hent]
    rw [if_pos (Or.inl hmedia)]
    rw [findImage]

/-- Witness for C8 at a concrete record holding one photo entity. -/
theorem claim_C8_witness :
    ∃ e ∈ (⟨some (1, 2), some 5, none, [⟨"photo", some "u", none⟩]⟩ :
      Tweet).entities, pyLower e.type = "photo" :=
  (claim_C8 ⟨some (1, 2), some 5, none, [⟨"photo", some "u", none⟩]⟩ ["image"]
    false (fun _ => [1, 2]) (by decide)).1 (by rfl)

end OgreTwitter
